import Mathlib

/-!
Verification of the reranking orchestration core
(`src/marqo/s2_inference/reranking/rerank.py`).

The source mutates a Python dict in place; here each operation is a pure
function returning the new value, and "unchanged" means the result equals
the input.  A Python dict is modelled as an ordered association list with
unique keys (`Hit`); the operations below implement Python-dict semantics
(lookup of the first binding, in-place value replacement, key deletion) and
are total on every list.
-/

namespace Rerank

/-- A Hit: one retrieved document, a mapping from field name to field value.
Values are opaque to this core, hence the type parameter `V`. -/
abbrev Hit (V : Type) := List (String × V)

/-- Python `k in d` on a dict: key membership. -/
def Hit.containsKey (h : Hit V) (k : String) : Bool :=
  h.any (fun p => p.1 == k)

/-- Python `d[k]` on a dict, made total: the value bound to `k`, if any. -/
def Hit.get : Hit V → String → Option V
  | [], _ => none
  | (k', v) :: t, k => if k' == k then some v else Hit.get t k

/-- Python `d[k] = v` on a dict: replace the existing binding in place,
or append a new one at the end. -/
def Hit.set : Hit V → String → V → Hit V
  | [], k, v => [(k, v)]
  | (k', v') :: t, k, v =>
    if k' == k then (k, v) :: t else (k', v') :: Hit.set t k v

/-- Python `del d[k]` on a dict: remove the binding of `k` (every binding,
which on a genuine dict is the single one). -/
def Hit.erase : Hit V → String → Hit V
  | [], _ => []
  | (k', v') :: t, k =>
    if k' == k then Hit.erase t k else (k', v') :: Hit.erase t k

/-- The results container.  The source accesses `search_results[ResultsFields.hits]`;
the `hits` key is a caller-side invariant, so the container is a structure. -/
structure ResultSet (V : Type) where
  hits : List (Hit V)
deriving DecidableEq, Repr

/-- Modelled from the spec: the `ResultsFields` enum
(`marqo.s2_inference.reranking.enums`, not part of the sources) names the
per-hit fields; only their identity and distinctness matter here. -/
def ResultsFields.original_score : String := "original_score"

/-- Modelled from the spec: the authoritative highlight field name. -/
def ResultsFields.highlights : String := "highlights"

/-- Modelled from the spec: the scratch score field name. -/
def ResultsFields.reranker_score : String := "reranker_score"

/-- Modelled from the spec: the scratch highlight field name. -/
def ResultsFields.highlights_reranked : String := "highlights_reranked"

/-- Modelled from the spec: the scratch correlation-id field name. -/
def ResultsFields.reranked_id : String := "reranked_id"

/-- The Python `searchable_attributes` argument: `None`, a list, a tuple,
or a string (the shapes the source distinguishes). -/
inductive SearchableAttrs where
  | none
  | list (fields : List String)
  | tup (fields : List String)
  | str (s : String)
deriving DecidableEq, Repr

/-- What Python iteration `for s in searchable_fields` yields (a string
yields its characters as one-character strings); `None` is never iterated
by the source (it is caught by the `== None` test first). -/
def SearchableAttrs.iterFields : SearchableAttrs → List String
  | .none => []
  | .list fs => fs
  | .tup fs => fs
  | .str s => s.data.map (fun c => String.mk [c])

/-- Python `searchable_attributes in (None, [], (), '')` (membership is by
`==`, so a non-empty collection is never a member, and a list only ever
equals a list, a tuple a tuple, a string a string). -/
def SearchableAttrs.isEmptyCollection : SearchableAttrs → Bool
  | .none => true
  | .list [] => true
  | .list (_ :: _) => false
  | .tup [] => true
  | .tup (_ :: _) => false
  | .str s => s == ""

/-- `_check_searchable_fields_in_results`:
`None` returns `True`; otherwise
`any([True for r in search_results[hits] if any(s in r for s in searchable_fields)])`. -/
def check_searchable_fields_in_results (search_results : ResultSet V)
    (searchable_fields : SearchableAttrs) : Bool :=
  match searchable_fields with
  | .none => true
  | sf => search_results.hits.any (fun r => sf.iterFields.any (fun s => r.containsKey s))

/-- First step of the cleanup loop body:
`if reranker_score in result: result[original_score] = result[reranker_score]; del result[reranker_score]`. -/
def promoteScore (result : Hit V) : Hit V :=
  match result.get ResultsFields.reranker_score with
  | some v => (result.set ResultsFields.original_score v).erase ResultsFields.reranker_score
  | none => result

/-- Second step of the cleanup loop body:
`if highlights_reranked in result: result[highlights] = result[highlights_reranked]; del result[highlights_reranked]`. -/
def promoteHighlights (result : Hit V) : Hit V :=
  match result.get ResultsFields.highlights_reranked with
  | some v => (result.set ResultsFields.highlights v).erase ResultsFields.highlights_reranked
  | none => result

/-- Third step of the cleanup loop body:
`if reranked_id in result: del result[reranked_id]`. -/
def dropRerankedId (result : Hit V) : Hit V :=
  if result.containsKey ResultsFields.reranked_id then
    result.erase ResultsFields.reranked_id
  else result

/-- The loop body of `cleanup_final_reranked_results` on one hit: the three
steps above, in source order, on the same (sequentially mutated) dict. -/
def cleanupHit (result : Hit V) : Hit V :=
  dropRerankedId (promoteHighlights (promoteScore result))

/-- `cleanup_final_reranked_results`: the loop over `reranked_results[hits]`. -/
def cleanup_final_reranked_results (reranked_results : ResultSet V) : ResultSet V :=
  ⟨reranked_results.hits.map cleanupHit⟩

/-- `'owl' in model_name.lower()` — the characters of the lowercased name. -/
def lowerChars (s : String) : List Char := s.data.map Char.toLower

/-- `'owl' in model_name.lower()`: substring test on the lowercased name. -/
def strContainsOwl (model_name : String) : Bool :=
  (lowerChars model_name).tails.any (fun t => "owl".data.isPrefixOf t)

/-- An external strategy (`ReRankerOwl(...).rerank`): from model name, device,
query, results and image attributes to the mutated results. -/
abbrev OwlStrategy (V : Type) :=
  String → String → String → ResultSet V → SearchableAttrs → ResultSet V

/-- An external strategy (`ReRankerText(...).rerank`): from model name, device,
num_highlights, query, results and searchable attributes to the mutated results. -/
abbrev TextStrategy (V : Type) :=
  String → String → Nat → String → ResultSet V → SearchableAttrs → ResultSet V

/-- The observable outcome of `rerank_search_results`: either a normal return
carrying the Python return value (`ret`, `none` standing for Python `None`)
and the final state of `search_result`, or a `RerankerError` raised with the
state at the raise. -/
inductive RerankOutcome (V : Type) where
  | ok (ret : Option (ResultSet V)) (final : ResultSet V)
  | rerankerError (final : ResultSet V)
deriving DecidableEq, Repr

/-- `rerank_search_results`, with the two external strategies passed in as
functions.  Mirrors the source control flow: guard, owl/text dispatch on
`'owl' in model_name.lower()`, the owl empty-attributes raise, the strategy
call, and the optional cleanup. -/
def rerank_search_results (owl : OwlStrategy V) (text : TextStrategy V)
    (search_result : ResultSet V) (query model_name device : String)
    (searchable_attributes : SearchableAttrs) (num_highlights : Nat)
    (overwrite_original_scores_highlights : Bool) : RerankOutcome V :=
  if check_searchable_fields_in_results search_result searchable_attributes = false then
    RerankOutcome.ok (some search_result) search_result
  else if strContainsOwl model_name then
    if searchable_attributes.isEmptyCollection then
      RerankOutcome.rerankerError search_result
    else
      let reranked := owl model_name device query search_result searchable_attributes
      RerankOutcome.ok none
        (if overwrite_original_scores_highlights then
          cleanup_final_reranked_results reranked
        else reranked)
  else
    let reranked := text model_name device num_highlights query search_result searchable_attributes
    RerankOutcome.ok none
      (if overwrite_original_scores_highlights then
        cleanup_final_reranked_results reranked
      else reranked)

/-- Spec-side statement of "model name contains the token `owl`,
case-insensitively": written from the spec's words, for comparison with the
source-derived `strContainsOwl`. -/
def specOwlToken (model_name : String) : Prop :=
  ∃ l r : List Char, model_name.data.map Char.toLower = l ++ "owl".data ++ r

/-! ### Basic dictionary lemmas -/

theorem Hit.containsKey_eq_isSome_get (h : Hit V) (k : String) :
    h.containsKey k = (h.get k).isSome := by
  induction h with
  | nil => simp [Hit.containsKey, Hit.get]
  | cons p t ih =>
    obtain ⟨k', v⟩ := p
    by_cases hk : k' == k
    · simp [Hit.containsKey, Hit.get, hk]
    · simp only [Bool.not_eq_true] at hk
      simp [Hit.containsKey, Hit.get, hk, ← ih, Hit.containsKey]

theorem Hit.get_set_self (h : Hit V) (k : String) (v : V) :
    (h.set k v).get k = some v := by
  induction h with
  | nil => simp [Hit.set, Hit.get]
  | cons p t ih =>
    obtain ⟨k', v'⟩ := p
    by_cases hk : k' == k
    · simp [Hit.set, hk, Hit.get]
    · simp only [Bool.not_eq_true] at hk
      simp [Hit.set, hk, Hit.get, ih]

theorem Hit.get_set_ne (h : Hit V) (k k2 : String) (v : V) (hne : k2 ≠ k) :
    (h.set k v).get k2 = h.get k2 := by
  induction h with
  | nil =>
    simp [Hit.set, Hit.get, hne]
    intro hkk
    exact absurd hkk.symm hne
  | cons p t ih =>
    obtain ⟨k', v'⟩ := p
    by_cases hk : k' == k
    · have hk' : k' = k := by simpa using hk
      subst hk'
      have : ¬ (k' == k2) = true := by simpa using fun hkk => hne hkk.symm
      simp [Hit.set, Hit.get, this]
    · simp only [Bool.not_eq_true] at hk
      simp [Hit.set, hk, Hit.get, ih]

theorem Hit.get_erase_self (h : Hit V) (k : String) :
    (h.erase k).get k = none := by
  induction h with
  | nil => simp [Hit.erase, Hit.get]
  | cons p t ih =>
    obtain ⟨k', v'⟩ := p
    by_cases hk : k' == k
    · simp [Hit.erase, hk, ih]
    · simp only [Bool.not_eq_true] at hk
      simp [Hit.erase, hk, Hit.get, ih]

theorem Hit.get_erase_ne (h : Hit V) (k k2 : String) (hne : k2 ≠ k) :
    (h.erase k).get k2 = h.get k2 := by
  induction h with
  | nil => simp [Hit.erase]
  | cons p t ih =>
    obtain ⟨k', v'⟩ := p
    by_cases hk : k' == k
    · have hk' : k' = k := by simpa using hk
      subst hk'
      have : ¬ (k' == k2) = true := by simpa using fun hkk => hne hkk.symm
      simp [Hit.erase, Hit.get, this, ih]
    · simp only [Bool.not_eq_true] at hk
      simp [Hit.erase, hk, Hit.get, ih]

/-! ### Characterization of the cleanup loop body -/

theorem promoteScore_get_reranker_score (h : Hit V) :
    (promoteScore h).get ResultsFields.reranker_score = none := by
  unfold promoteScore
  cases hs : h.get ResultsFields.reranker_score with
  | none => exact hs
  | some v => exact Hit.get_erase_self _ _

theorem promoteScore_get_original_score (h : Hit V) :
    (promoteScore h).get ResultsFields.original_score =
      (match h.get ResultsFields.reranker_score with
       | some v => some v
       | none => h.get ResultsFields.original_score) := by
  unfold promoteScore
  cases hs : h.get ResultsFields.reranker_score with
  | none => rfl
  | some v =>
    rw [Hit.get_erase_ne _ _ _ (by decide), Hit.get_set_self]

theorem promoteScore_get_other (h : Hit V) (k : String)
    (h1 : k ≠ ResultsFields.reranker_score) (h2 : k ≠ ResultsFields.original_score) :
    (promoteScore h).get k = h.get k := by
  unfold promoteScore
  cases hs : h.get ResultsFields.reranker_score with
  | none => rfl
  | some v => rw [Hit.get_erase_ne _ _ _ h1, Hit.get_set_ne _ _ _ _ h2]

theorem promoteHighlights_get_highlights_reranked (h : Hit V) :
    (promoteHighlights h).get ResultsFields.highlights_reranked = none := by
  unfold promoteHighlights
  cases hs : h.get ResultsFields.highlights_reranked with
  | none => exact hs
  | some v => exact Hit.get_erase_self _ _

theorem promoteHighlights_get_highlights (h : Hit V) :
    (promoteHighlights h).get ResultsFields.highlights =
      (match h.get ResultsFields.highlights_reranked with
       | some v => some v
       | none => h.get ResultsFields.highlights) := by
  unfold promoteHighlights
  cases hs : h.get ResultsFields.highlights_reranked with
  | none => rfl
  | some v =>
    rw [Hit.get_erase_ne _ _ _ (by decide), Hit.get_set_self]

theorem promoteHighlights_get_other (h : Hit V) (k : String)
    (h1 : k ≠ ResultsFields.highlights_reranked) (h2 : k ≠ ResultsFields.highlights) :
    (promoteHighlights h).get k = h.get k := by
  unfold promoteHighlights
  cases hs : h.get ResultsFields.highlights_reranked with
  | none => rfl
  | some v => rw [Hit.get_erase_ne _ _ _ h1, Hit.get_set_ne _ _ _ _ h2]

theorem dropRerankedId_get_reranked_id (h : Hit V) :
    (dropRerankedId h).get ResultsFields.reranked_id = none := by
  unfold dropRerankedId
  by_cases hc : h.containsKey ResultsFields.reranked_id
  · simp [hc, Hit.get_erase_self]
  · rw [Hit.containsKey_eq_isSome_get] at hc
    simp only [Bool.not_eq_true] at hc
    have hn : h.get ResultsFields.reranked_id = none :=
      Option.not_isSome_iff_eq_none.mp (by simp [hc])
    simp [Hit.containsKey_eq_isSome_get, hc, hn]

theorem dropRerankedId_get_other (h : Hit V) (k : String)
    (h1 : k ≠ ResultsFields.reranked_id) :
    (dropRerankedId h).get k = h.get k := by
  unfold dropRerankedId
  by_cases hc : h.containsKey ResultsFields.reranked_id
  · simp [hc, Hit.get_erase_ne _ _ _ h1]
  · simp [hc]

theorem cleanupHit_get_reranker_score (h : Hit V) :
    (cleanupHit h).get ResultsFields.reranker_score = none := by
  unfold cleanupHit
  rw [dropRerankedId_get_other _ _ (by decide),
    promoteHighlights_get_other _ _ (by decide) (by decide),
    promoteScore_get_reranker_score]

theorem cleanupHit_get_highlights_reranked (h : Hit V) :
    (cleanupHit h).get ResultsFields.highlights_reranked = none := by
  unfold cleanupHit
  rw [dropRerankedId_get_other _ _ (by decide),
    promoteHighlights_get_highlights_reranked]

theorem cleanupHit_get_reranked_id (h : Hit V) :
    (cleanupHit h).get ResultsFields.reranked_id = none := by
  unfold cleanupHit
  rw [dropRerankedId_get_reranked_id]

theorem cleanupHit_get_original_score (h : Hit V) :
    (cleanupHit h).get ResultsFields.original_score =
      (match h.get ResultsFields.reranker_score with
       | some v => some v
       | none => h.get ResultsFields.original_score) := by
  unfold cleanupHit
  rw [dropRerankedId_get_other _ _ (by decide),
    promoteHighlights_get_other _ _ (by decide) (by decide),
    promoteScore_get_original_score]

theorem cleanupHit_get_highlights (h : Hit V) :
    (cleanupHit h).get ResultsFields.highlights =
      (match h.get ResultsFields.highlights_reranked with
       | some v => some v
       | none => h.get ResultsFields.highlights) := by
  unfold cleanupHit
  rw [dropRerankedId_get_other _ _ (by decide),
    promoteHighlights_get_highlights]
  cases hs : h.get ResultsFields.highlights_reranked with
  | none =>
    rw [promoteScore_get_other _ _ (by decide) (by decide), hs,
      promoteScore_get_other _ _ (by decide) (by decide)]
  | some v =>
    rw [promoteScore_get_other _ _ (by decide) (by decide), hs]

theorem cleanupHit_get_other (h : Hit V) (k : String)
    (h1 : k ≠ ResultsFields.reranker_score)
    (h2 : k ≠ ResultsFields.highlights_reranked)
    (h3 : k ≠ ResultsFields.reranked_id)
    (h4 : k ≠ ResultsFields.original_score)
    (h5 : k ≠ ResultsFields.highlights) :
    (cleanupHit h).get k = h.get k := by
  unfold cleanupHit
  rw [dropRerankedId_get_other _ _ h3, promoteHighlights_get_other _ _ h2 h5,
    promoteScore_get_other _ _ h1 h4]

theorem cleanupHit_idem (h : Hit V) : cleanupHit (cleanupHit h) = cleanupHit h := by
  have hs := cleanupHit_get_reranker_score h
  have hh := cleanupHit_get_highlights_reranked h
  have hr := cleanupHit_get_reranked_id h
  show dropRerankedId (promoteHighlights (promoteScore (cleanupHit h))) = cleanupHit h
  rw [promoteScore, hs]
  rw [promoteHighlights, hh]
  rw [dropRerankedId, Hit.containsKey_eq_isSome_get, hr]
  rfl

/-! ### Claim theorems -/

/-- C2: the applicability guard `_check_searchable_fields_in_results` returns
true for every result set when `searchable_fields` is `None`; and for every
result set and every non-empty list of field names it returns true iff at
least one hit contains at least one of the listed names as a key. -/
theorem C2_guard_correct (rs : ResultSet V) (fs : List String) (_hne : fs ≠ []) :
    check_searchable_fields_in_results rs SearchableAttrs.none = true
    ∧ (check_searchable_fields_in_results rs (SearchableAttrs.list fs) = true ↔
        ∃ h ∈ rs.hits, ∃ s ∈ fs, h.containsKey s = true) := by
  refine ⟨rfl, ?_⟩
  show (rs.hits.any fun r => fs.any fun s => r.containsKey s) = true ↔ _
  simp [List.any_eq_true]

/-- Witness for C2: hits `[{"title": "a"}, {"desc": "b"}]` with
`searchable_fields = ["title"]` (the spec's Scenario A shape). -/
theorem C2_guard_correct_witness :
    check_searchable_fields_in_results (V := String)
        ⟨[[("title", "a")], [("desc", "b")]]⟩ SearchableAttrs.none = true
    ∧ (check_searchable_fields_in_results (V := String)
          ⟨[[("title", "a")], [("desc", "b")]]⟩ (SearchableAttrs.list ["title"]) = true ↔
        ∃ h ∈ ([[("title", "a")], [("desc", "b")]] : List (Hit String)),
          ∃ s ∈ ["title"], h.containsKey s = true) :=
  C2_guard_correct ⟨[[("title", "a")], [("desc", "b")]]⟩ ["title"] (by decide)

/-- C3: after `cleanup_final_reranked_results`, no hit contains any of the
three scratch keys `reranker_score`, `highlights_reranked`, `reranked_id`. -/
theorem C3_scratch_quarantine (rs : ResultSet V) (h : Hit V)
    (hmem : h ∈ (cleanup_final_reranked_results rs).hits) :
    h.containsKey ResultsFields.reranker_score = false
    ∧ h.containsKey ResultsFields.highlights_reranked = false
    ∧ h.containsKey ResultsFields.reranked_id = false := by
  simp only [cleanup_final_reranked_results, List.mem_map] at hmem
  obtain ⟨h0, _, rfl⟩ := hmem
  refine ⟨?_, ?_, ?_⟩ <;>
    simp [Hit.containsKey_eq_isSome_get, cleanupHit_get_reranker_score,
      cleanupHit_get_highlights_reranked, cleanupHit_get_reranked_id]

/-- Witness for C3: a one-hit result set carrying all three scratch keys. -/
theorem C3_scratch_quarantine_witness :
    (([(ResultsFields.original_score, "0.9"), (ResultsFields.highlights, "hl")] : Hit String) ∈
        (cleanup_final_reranked_results (V := String)
          ⟨[[(ResultsFields.original_score, "0.5"), (ResultsFields.reranker_score, "0.9"),
             (ResultsFields.highlights_reranked, "hl"), (ResultsFields.reranked_id, "x1")]]⟩).hits)
    ∧ Hit.containsKey
        ([(ResultsFields.original_score, "0.9"), (ResultsFields.highlights, "hl")] : Hit String)
        ResultsFields.reranker_score = false
    ∧ Hit.containsKey
        ([(ResultsFields.original_score, "0.9"), (ResultsFields.highlights, "hl")] : Hit String)
        ResultsFields.highlights_reranked = false
    ∧ Hit.containsKey
        ([(ResultsFields.original_score, "0.9"), (ResultsFields.highlights, "hl")] : Hit String)
        ResultsFields.reranked_id = false :=
  ⟨by decide,
    C3_scratch_quarantine
      ⟨[[(ResultsFields.original_score, "0.5"), (ResultsFields.reranker_score, "0.9"),
         (ResultsFields.highlights_reranked, "hl"), (ResultsFields.reranked_id, "x1")]]⟩
      [(ResultsFields.original_score, "0.9"), (ResultsFields.highlights, "hl")] (by decide)⟩

/-- C4: `cleanup_final_reranked_results` is idempotent. -/
theorem C4_cleanup_idempotent (rs : ResultSet V) :
    cleanup_final_reranked_results (cleanup_final_reranked_results rs) =
      cleanup_final_reranked_results rs := by
  simp [cleanup_final_reranked_results, List.map_map, Function.comp, cleanupHit_idem]

/-- C5: cleanup does not lose data: a hit without `reranker_score` keeps its
`original_score`, a hit without `highlights_reranked` keeps its `highlights`,
and every field other than the three scratch keys and the two promotion
targets is unchanged on every hit. -/
theorem C5_no_data_loss (rs : ResultSet V) (i : Nat) (h : Hit V)
    (hget : rs.hits[i]? = some h) :
    ∃ hc, (cleanup_final_reranked_results rs).hits[i]? = some hc
      ∧ (h.containsKey ResultsFields.reranker_score = false →
          hc.get ResultsFields.original_score = h.get ResultsFields.original_score)
      ∧ (h.containsKey ResultsFields.highlights_reranked = false →
          hc.get ResultsFields.highlights = h.get ResultsFields.highlights)
      ∧ ∀ k : String, k ≠ ResultsFields.reranker_score →
          k ≠ ResultsFields.highlights_reranked → k ≠ ResultsFields.reranked_id →
          k ≠ ResultsFields.original_score → k ≠ ResultsFields.highlights →
          hc.get k = h.get k := by
  refine ⟨cleanupHit h, ?_, ?_, ?_, ?_⟩
  · simp [cleanup_final_reranked_results, List.getElem?_map, hget]
  · intro hnone
    rw [Hit.containsKey_eq_isSome_get] at hnone
    have hn : h.get ResultsFields.reranker_score = none :=
      Option.not_isSome_iff_eq_none.mp (by simp [hnone])
    rw [cleanupHit_get_original_score, hn]
  · intro hnone
    rw [Hit.containsKey_eq_isSome_get] at hnone
    have hn : h.get ResultsFields.highlights_reranked = none :=
      Option.not_isSome_iff_eq_none.mp (by simp [hnone])
    rw [cleanupHit_get_highlights, hn]
  · intro k h1 h2 h3 h4 h5
    exact cleanupHit_get_other h k h1 h2 h3 h4 h5

/-- Witness for C5: a never-touched hit `{"title": "a", "original_score": "0.5"}`. -/
theorem C5_no_data_loss_witness :
    ∃ hc, (cleanup_final_reranked_results (V := String)
        ⟨[[("title", "a"), (ResultsFields.original_score, "0.5")]]⟩).hits[0]? = some hc
      ∧ (Hit.containsKey ([("title", "a"), (ResultsFields.original_score, "0.5")] : Hit String)
            ResultsFields.reranker_score = false →
          hc.get ResultsFields.original_score =
            Hit.get [("title", "a"), (ResultsFields.original_score, "0.5")]
              ResultsFields.original_score)
      ∧ (Hit.containsKey ([("title", "a"), (ResultsFields.original_score, "0.5")] : Hit String)
            ResultsFields.highlights_reranked = false →
          hc.get ResultsFields.highlights =
            Hit.get [("title", "a"), (ResultsFields.original_score, "0.5")]
              ResultsFields.highlights)
      ∧ ∀ k : String, k ≠ ResultsFields.reranker_score →
          k ≠ ResultsFields.highlights_reranked → k ≠ ResultsFields.reranked_id →
          k ≠ ResultsFields.original_score → k ≠ ResultsFields.highlights →
          hc.get k = Hit.get [("title", "a"), (ResultsFields.original_score, "0.5")] k :=
  C5_no_data_loss ⟨[[("title", "a"), (ResultsFields.original_score, "0.5")]]⟩ 0
    [("title", "a"), (ResultsFields.original_score, "0.5")] (by decide)

/-- C6: a present `reranker_score` is promoted into `original_score` and the
`reranker_score`/`reranked_id` keys are removed; in particular the hit
`{"original_score": a, "reranker_score": b, "reranked_id": c}` becomes exactly
`{"original_score": b}`, and a present `highlights_reranked` analogously
replaces `highlights` and is removed. -/
theorem C6_promotion (rs : ResultSet V) (i : Nat) (h : Hit V) (v : V)
    (hget : rs.hits[i]? = some h)
    (hscore : h.get ResultsFields.reranker_score = some v) :
    (∃ hc, (cleanup_final_reranked_results rs).hits[i]? = some hc
      ∧ hc.get ResultsFields.original_score = some v
      ∧ hc.containsKey ResultsFields.reranker_score = false
      ∧ hc.containsKey ResultsFields.reranked_id = false
      ∧ ∀ w : V, h.get ResultsFields.highlights_reranked = some w →
          hc.get ResultsFields.highlights = some w
          ∧ hc.containsKey ResultsFields.highlights_reranked = false)
    ∧ (∀ a b c : V,
        cleanup_final_reranked_results
          ⟨[[(ResultsFields.original_score, a), (ResultsFields.reranker_score, b),
             (ResultsFields.reranked_id, c)]]⟩ =
          ⟨[[(ResultsFields.original_score, b)]]⟩)
    ∧ (∀ a b : V,
        cleanup_final_reranked_results
          ⟨[[(ResultsFields.highlights, a), (ResultsFields.highlights_reranked, b)]]⟩ =
          ⟨[[(ResultsFields.highlights, b)]]⟩) := by
  refine ⟨⟨cleanupHit h, ?_, ?_, ?_, ?_, ?_⟩, ?_, ?_⟩
  · simp [cleanup_final_reranked_results, List.getElem?_map, hget]
  · rw [cleanupHit_get_original_score, hscore]
  · simp [Hit.containsKey_eq_isSome_get, cleanupHit_get_reranker_score]
  · simp [Hit.containsKey_eq_isSome_get, cleanupHit_get_reranked_id]
  · intro w hw
    refine ⟨?_, ?_⟩
    · rw [cleanupHit_get_highlights, hw]
    · simp [Hit.containsKey_eq_isSome_get, cleanupHit_get_highlights_reranked]
  · intro a b c
    rfl
  · intro a b
    rfl

/-- Witness for C6: the spec's Scenario C result set with string-shaped values. -/
theorem C6_promotion_witness :
    (∃ hc, (cleanup_final_reranked_results (V := String)
        ⟨[[(ResultsFields.original_score, "0.5"), (ResultsFields.reranker_score, "0.9"),
           (ResultsFields.reranked_id, "x1")]]⟩).hits[0]? = some hc
      ∧ hc.get ResultsFields.original_score = some "0.9"
      ∧ hc.containsKey ResultsFields.reranker_score = false
      ∧ hc.containsKey ResultsFields.reranked_id = false
      ∧ ∀ w : String,
          Hit.get [(ResultsFields.original_score, "0.5"), (ResultsFields.reranker_score, "0.9"),
              (ResultsFields.reranked_id, "x1")] ResultsFields.highlights_reranked = some w →
            hc.get ResultsFields.highlights = some w
            ∧ hc.containsKey ResultsFields.highlights_reranked = false)
    ∧ (∀ a b c : String,
        cleanup_final_reranked_results
          ⟨[[(ResultsFields.original_score, a), (ResultsFields.reranker_score, b),
             (ResultsFields.reranked_id, c)]]⟩ =
          ⟨[[(ResultsFields.original_score, b)]]⟩)
    ∧ (∀ a b : String,
        cleanup_final_reranked_results
          ⟨[[(ResultsFields.highlights, a), (ResultsFields.highlights_reranked, b)]]⟩ =
          ⟨[[(ResultsFields.highlights, b)]]⟩) :=
  C6_promotion
    ⟨[[(ResultsFields.original_score, "0.5"), (ResultsFields.reranker_score, "0.9"),
       (ResultsFields.reranked_id, "x1")]]⟩ 0
    [(ResultsFields.original_score, "0.5"), (ResultsFields.reranker_score, "0.9"),
     (ResultsFields.reranked_id, "x1")] "0.9" (by decide) (by decide)

/-! ### Guard and dispatch lemmas -/

theorem any_of_const_false (l : List α) : (l.any fun _ => false) = false := by
  induction l with
  | nil => rfl
  | cons a t ih => simp [List.any_cons, ih]

/-- An empty (but non-`None`) attribute collection always fails the guard:
the inner `any` ranges over no field names. -/
theorem check_empty_nonNone (rs : ResultSet V) (attrs : SearchableAttrs)
    (he : attrs.isEmptyCollection = true) (hn : attrs ≠ SearchableAttrs.none) :
    check_searchable_fields_in_results rs attrs = false := by
  cases attrs with
  | none => exact absurd rfl hn
  | list fs =>
    cases fs with
    | nil =>
      show (rs.hits.any fun r => ([] : List String).any fun s => r.containsKey s) = false
      simp [any_of_const_false]
    | cons a t => simp [SearchableAttrs.isEmptyCollection] at he
  | tup fs =>
    cases fs with
    | nil =>
      show (rs.hits.any fun r => ([] : List String).any fun s => r.containsKey s) = false
      simp [any_of_const_false]
    | cons a t => simp [SearchableAttrs.isEmptyCollection] at he
  | str s =>
    have hs : s = "" := by simpa [SearchableAttrs.isEmptyCollection] using he
    subst hs
    have hd : (("".data.map fun c => String.mk [c]) : List String) = [] := rfl
    show (rs.hits.any fun r => ("".data.map fun c => String.mk [c]).any
      fun s => r.containsKey s) = false
    rw [hd]
    simp [any_of_const_false]

/-- The source-side substring test agrees with the spec-side statement of
"the lowercased model name contains the token `owl`". -/
theorem strContainsOwl_iff_specOwlToken (m : String) :
    strContainsOwl m = true ↔ specOwlToken m := by
  unfold strContainsOwl specOwlToken lowerChars
  rw [List.any_eq_true]
  constructor
  · rintro ⟨t, ht, hp⟩
    rw [List.mem_tails] at ht
    rw [List.isPrefixOf_iff_prefix] at hp
    obtain ⟨r, hr⟩ := hp
    obtain ⟨l, hl⟩ := ht
    exact ⟨l, r, by rw [← hl, ← hr, List.append_assoc]⟩
  · rintro ⟨l, r, h⟩
    refine ⟨"owl".data ++ r, ?_, ?_⟩
    · rw [List.mem_tails]
      exact ⟨l, by rw [h, List.append_assoc]⟩
    · rw [List.isPrefixOf_iff_prefix]
      exact ⟨r, rfl⟩

/-- C1 (counterexample): with an owl model name and
`searchable_attributes = []` the function does not raise: the guard rejects
first and the call returns the result set unchanged. -/
theorem C1_owl_empty_counterexample :
    rerank_search_results (V := String) (fun _ _ _ rs _ => rs) (fun _ _ _ _ rs _ => rs)
      ⟨[[("title", "a")]]⟩ "q" "owl-vit" "cpu" (SearchableAttrs.list []) 1 true
      = RerankOutcome.ok (some ⟨[[("title", "a")]]⟩) ⟨[[("title", "a")]]⟩ := by
  decide

/-- C1 (amended): with an owl model name, only `searchable_attributes = None`
reaches the `RerankerError` raise, with the result set unmutated at the raise;
for `[]`, `()` and `""` the applicability guard rejects the call first and the
function returns the result set unchanged without raising. -/
theorem C1_owl_empty_amended (owl : OwlStrategy V) (text : TextStrategy V)
    (rs : ResultSet V) (q m d : String) (nh : Nat) (ow : Bool)
    (howl : strContainsOwl m = true) :
    rerank_search_results owl text rs q m d SearchableAttrs.none nh ow =
        RerankOutcome.rerankerError rs
    ∧ ∀ attrs : SearchableAttrs, attrs.isEmptyCollection = true →
        attrs ≠ SearchableAttrs.none →
        rerank_search_results owl text rs q m d attrs nh ow =
          RerankOutcome.ok (some rs) rs := by
  constructor
  · unfold rerank_search_results
    have hg : check_searchable_fields_in_results rs SearchableAttrs.none = true := rfl
    simp [hg, howl, SearchableAttrs.isEmptyCollection]
  · intro attrs he hn
    unfold rerank_search_results
    rw [check_empty_nonNone rs attrs he hn]
    simp

/-- Witness for C1 (amended) at a concrete owl model name, with `None`
raising and the empty string returning unchanged. -/
theorem C1_owl_empty_amended_witness :
    rerank_search_results (V := String) (fun _ _ _ rs _ => rs) (fun _ _ _ _ rs _ => rs)
        ⟨[[("title", "a")]]⟩ "q" "OwlViT" "cpu" SearchableAttrs.none 1 true =
      RerankOutcome.rerankerError ⟨[[("title", "a")]]⟩
    ∧ rerank_search_results (V := String) (fun _ _ _ rs _ => rs) (fun _ _ _ _ rs _ => rs)
        ⟨[[("title", "a")]]⟩ "q" "OwlViT" "cpu" (SearchableAttrs.str "") 1 true =
      RerankOutcome.ok (some ⟨[[("title", "a")]]⟩) ⟨[[("title", "a")]]⟩ :=
  ⟨(C1_owl_empty_amended (fun _ _ _ rs _ => rs) (fun _ _ _ _ rs _ => rs)
      ⟨[[("title", "a")]]⟩ "q" "OwlViT" "cpu" 1 true (by decide)).1,
   (C1_owl_empty_amended (fun _ _ _ rs _ => rs) (fun _ _ _ _ rs _ => rs)
      ⟨[[("title", "a")]]⟩ "q" "OwlViT" "cpu" 1 true (by decide)).2
     (SearchableAttrs.str "") (by decide) (by decide)⟩

/-- C7 (code bug): on a guard-rejected input the source executes
`return search_result`, so the call returns the result-set object rather than
the `None` promised by its own `-> None` annotation; the result set itself is
left completely unchanged. -/
theorem C7_returns_object_on_guard_reject :
    rerank_search_results (V := String) (fun _ _ _ rs _ => rs) (fun _ _ _ _ rs _ => rs)
      ⟨[[("title", "a")], [("desc", "b")]]⟩ "q" "cross-encoder" "cpu"
      (SearchableAttrs.list ["price"]) 1 true
    = RerankOutcome.ok (some ⟨[[("title", "a")], [("desc", "b")]]⟩)
        ⟨[[("title", "a")], [("desc", "b")]]⟩ := by
  decide

/-- C8: whenever the guard passes, strategy selection is decided solely by
the case-insensitive substring match of `owl` on the model name: the token
present selects the Owl strategy, absent selects the Text strategy. -/
theorem C8_dispatch_by_owl_token (owl : OwlStrategy V) (text : TextStrategy V)
    (rs : ResultSet V) (q m d : String) (attrs : SearchableAttrs) (nh : Nat) (ow : Bool)
    (hguard : check_searchable_fields_in_results rs attrs = true) :
    (strContainsOwl m = true ↔ specOwlToken m)
    ∧ (specOwlToken m → attrs.isEmptyCollection = false →
        rerank_search_results owl text rs q m d attrs nh ow =
          RerankOutcome.ok none
            (if ow then cleanup_final_reranked_results (owl m d q rs attrs)
             else owl m d q rs attrs))
    ∧ (¬ specOwlToken m →
        rerank_search_results owl text rs q m d attrs nh ow =
          RerankOutcome.ok none
            (if ow then cleanup_final_reranked_results (text m d nh q rs attrs)
             else text m d nh q rs attrs)) := by
  refine ⟨strContainsOwl_iff_specOwlToken m, ?_, ?_⟩
  · intro hspec hne
    have howl : strContainsOwl m = true := (strContainsOwl_iff_specOwlToken m).mpr hspec
    unfold rerank_search_results
    simp [hguard, howl, hne]
  · intro hspec
    have howl : strContainsOwl m = false := by
      cases hb : strContainsOwl m with
      | false => rfl
      | true => exact absurd ((strContainsOwl_iff_specOwlToken m).mp hb) hspec
    unfold rerank_search_results
    simp [hguard, howl]

/-- Witness for C8 at an owl-bearing model name over a matching result set. -/
theorem C8_dispatch_by_owl_token_witness :
    (strContainsOwl "Marqo-OwlViT" = true ↔ specOwlToken "Marqo-OwlViT")
    ∧ (specOwlToken "Marqo-OwlViT" →
        SearchableAttrs.isEmptyCollection (SearchableAttrs.list ["img"]) = false →
        rerank_search_results (V := String) (fun _ _ _ rs _ => rs) (fun _ _ _ _ rs _ => rs)
            ⟨[[("img", "u")]]⟩ "q" "Marqo-OwlViT" "cpu" (SearchableAttrs.list ["img"]) 1 true =
          RerankOutcome.ok none
            (if true then cleanup_final_reranked_results
                ((fun _ _ _ rs _ => rs : OwlStrategy String) "Marqo-OwlViT" "cpu" "q"
                  ⟨[[("img", "u")]]⟩ (SearchableAttrs.list ["img"]))
             else (fun _ _ _ rs _ => rs : OwlStrategy String) "Marqo-OwlViT" "cpu" "q"
                  ⟨[[("img", "u")]]⟩ (SearchableAttrs.list ["img"])))
    ∧ (¬ specOwlToken "Marqo-OwlViT" →
        rerank_search_results (V := String) (fun _ _ _ rs _ => rs) (fun _ _ _ _ rs _ => rs)
            ⟨[[("img", "u")]]⟩ "q" "Marqo-OwlViT" "cpu" (SearchableAttrs.list ["img"]) 1 true =
          RerankOutcome.ok none
            (if true then cleanup_final_reranked_results
                ((fun _ _ _ _ rs _ => rs : TextStrategy String) "Marqo-OwlViT" "cpu" 1 "q"
                  ⟨[[("img", "u")]]⟩ (SearchableAttrs.list ["img"]))
             else (fun _ _ _ _ rs _ => rs : TextStrategy String) "Marqo-OwlViT" "cpu" 1 "q"
                  ⟨[[("img", "u")]]⟩ (SearchableAttrs.list ["img"]))) :=
  C8_dispatch_by_owl_token (fun _ _ _ rs _ => rs) (fun _ _ _ _ rs _ => rs)
    ⟨[[("img", "u")]]⟩ "q" "Marqo-OwlViT" "cpu" (SearchableAttrs.list ["img"]) 1 true
    (by decide)

/-- C9: with the overwrite flag false the cleanup step is not executed and the
final state is exactly the strategy output; with the flag true the cleanup is
applied exactly once to the strategy output. -/
theorem C9_overwrite_flag (owl : OwlStrategy V) (text : TextStrategy V)
    (rs : ResultSet V) (q m d : String) (attrs : SearchableAttrs) (nh : Nat)
    (hguard : check_searchable_fields_in_results rs attrs = true)
    (hok : strContainsOwl m = true → attrs.isEmptyCollection = false) :
    rerank_search_results owl text rs q m d attrs nh false =
      RerankOutcome.ok none
        (if strContainsOwl m then owl m d q rs attrs else text m d nh q rs attrs)
    ∧ rerank_search_results owl text rs q m d attrs nh true =
      RerankOutcome.ok none
        (cleanup_final_reranked_results
          (if strContainsOwl m then owl m d q rs attrs else text m d nh q rs attrs)) := by
  constructor <;>
  · unfold rerank_search_results
    by_cases howl : strContainsOwl m
    · have hne := hok howl
      simp [hguard, howl, hne]
    · simp [hguard, howl]

/-- Witness for C9 at a text model name over a matching result set. -/
theorem C9_overwrite_flag_witness :
    rerank_search_results (V := String) (fun _ _ _ rs _ => rs) (fun _ _ _ _ rs _ => rs)
        ⟨[[("title", "a")]]⟩ "q" "cross-encoder" "cpu" (SearchableAttrs.list ["title"]) 1 false =
      RerankOutcome.ok none
        (if strContainsOwl "cross-encoder" then
          (fun _ _ _ rs _ => rs : OwlStrategy String) "cross-encoder" "cpu" "q"
            ⟨[[("title", "a")]]⟩ (SearchableAttrs.list ["title"])
         else (fun _ _ _ _ rs _ => rs : TextStrategy String) "cross-encoder" "cpu" 1 "q"
            ⟨[[("title", "a")]]⟩ (SearchableAttrs.list ["title"]))
    ∧ rerank_search_results (V := String) (fun _ _ _ rs _ => rs) (fun _ _ _ _ rs _ => rs)
        ⟨[[("title", "a")]]⟩ "q" "cross-encoder" "cpu" (SearchableAttrs.list ["title"]) 1 true =
      RerankOutcome.ok none
        (cleanup_final_reranked_results
          (if strContainsOwl "cross-encoder" then
            (fun _ _ _ rs _ => rs : OwlStrategy String) "cross-encoder" "cpu" "q"
              ⟨[[("title", "a")]]⟩ (SearchableAttrs.list ["title"])
           else (fun _ _ _ _ rs _ => rs : TextStrategy String) "cross-encoder" "cpu" 1 "q"
              ⟨[[("title", "a")]]⟩ (SearchableAttrs.list ["title"]))) :=
  C9_overwrite_flag (fun _ _ _ rs _ => rs) (fun _ _ _ _ rs _ => rs)
    ⟨[[("title", "a")]]⟩ "q" "cross-encoder" "cpu" (SearchableAttrs.list ["title"]) 1
    (by decide) (by decide)

/-- C10: an empty searchable-attributes collection (`[]`, `()` or `""`) makes
the guard reject every result set, so `rerank_search_results` returns early
with the result set unchanged and raises no error, for every model name. -/
theorem C10_empty_attrs_skip (owl : OwlStrategy V) (text : TextStrategy V)
    (rs : ResultSet V) (q m d : String) (nh : Nat) (ow : Bool) :
    check_searchable_fields_in_results rs (SearchableAttrs.list []) = false
    ∧ check_searchable_fields_in_results rs (SearchableAttrs.tup []) = false
    ∧ check_searchable_fields_in_results rs (SearchableAttrs.str "") = false
    ∧ rerank_search_results owl text rs q m d (SearchableAttrs.list []) nh ow =
        RerankOutcome.ok (some rs) rs
    ∧ rerank_search_results owl text rs q m d (SearchableAttrs.tup []) nh ow =
        RerankOutcome.ok (some rs) rs
    ∧ rerank_search_results owl text rs q m d (SearchableAttrs.str "") nh ow =
        RerankOutcome.ok (some rs) rs := by
  have h1 := check_empty_nonNone rs (SearchableAttrs.list []) (by decide) (by decide)
  have h2 := check_empty_nonNone rs (SearchableAttrs.tup []) (by decide) (by decide)
  have h3 := check_empty_nonNone rs (SearchableAttrs.str "") (by decide) (by decide)
  refine ⟨h1, h2, h3, ?_, ?_, ?_⟩ <;>
  · unfold rerank_search_results
    first
    | rw [h1]; simp
    | rw [h2]; simp
    | rw [h3]; simp

end Rerank
